import Mathlib

/-!
# Book Management REST API: a shallow embedding and its verified properties

The development follows the two source files of the repository:

* `src/server.js`: the in-memory store (`books`, `nextId`), the `validateBook`
  middleware and the five `/books` route handlers;
* `src/public/static/script.js`: the browser controller (`editingId`, the form
  submit handler, `editBook`, `deleteBook`, `resetForm`, the cancel and keydown
  handlers) and the renderer (`displayBooks`, `escapeHtml`).

Conventions of the embedding.

* A JavaScript value that can come out of `JSON.parse` is a `JsVal`; an absent
  property reads as `JsVal.undefined`.  A number is held by its integer value:
  fractional and non-finite doubles are outside the model, and the counter
  `nextId` is not subject to the loss of precision of a double beyond `2^53`.
  An integer written in a JSON text reaches a handler as the nearest binary64
  number (`binary64`), which is the integer itself only when it is exactly
  representable.
* A request body is the object produced by `express.json()`: a finite map from
  property names to values, held as an association list (`JsObj`) in which the
  first binding of a name is the value of the property.  A body that is a JSON
  array has none of the properties the handlers read and behaves as `[]`.
* The route parameter `:id` enters a handler as the value of
  `parseInt(req.params.id)`: an integer, or `NaN` (`none`).
* `new Date().getFullYear()` is an input of the handler (`now`).
* The client is modelled on its variable `editingId` and on the requests it
  sends; each handler runs to completion on the outcome of its `fetch`.  What
  the handlers write to the page (messages, button labels, form fields) is not
  part of the state.
-/

/-! ## JavaScript values -/

/-- A JavaScript value as produced by `JSON.parse`, plus `undefined`.  `num n`
is the binary64 number whose value is the integer `n`. -/
inductive JsVal where
  | undefined
  | null
  | bool (b : Bool)
  | num (n : Int)
  | str (s : String)
  | arr (items : List JsVal)
  | obj (fields : List (String × JsVal))

namespace JsVal

/-- JavaScript truthiness (`ToBoolean`): `undefined`, `null`, `false`, `0` and
the empty string are falsy, everything else (arrays and objects included) is
truthy. -/
def truthy : JsVal → Bool
  | undefined => false
  | null => false
  | bool b => b
  | num n => n != 0
  | str s => s.data != []
  | arr _ => true
  | obj _ => true

/-- The test `typeof v === 'string'`. -/
def isString : JsVal → Bool
  | str _ => true
  | _ => false

/-- The operator `a || b`: `a` when it is truthy, else `b`. -/
def or (a b : JsVal) : JsVal := if a.truthy then a else b

/-- Whether the value is `undefined` or `null` (rendered as the empty string by
`Array.prototype.join`). -/
def isNullish : JsVal → Bool
  | undefined => true
  | null => true
  | _ => false

mutual
/-- The string conversion `ToString` applied by a template literal.  A number
is printed in decimal digits, as JavaScript prints an integer of magnitude below
`10^21`; the exponent form of larger numbers is not modelled. -/
def toJsString : JsVal → String
  | undefined => "undefined"
  | null => "null"
  | bool b => if b then "true" else "false"
  | num n => toString n
  | str s => s
  | arr xs => joinItems xs
  | obj _ => "[object Object]"
/-- The conversion `Array.prototype.join(",")` behind the `ToString` of an array. -/
def joinItems : List JsVal → String
  | [] => ""
  | x :: xs =>
    (if x.isNullish then "" else x.toJsString) ++
      (if xs.isEmpty then "" else "," ++ joinItems xs)
end

end JsVal

/-- A parsed JSON object: own properties by name. -/
abbrev JsObj := List (String × JsVal)

/-- Property read `obj.key` (what the destructuring `const { key } = obj`
yields): the stored value, or `undefined` when the property is absent. -/
def JsObj.get (o : JsObj) (key : String) : JsVal :=
  match o.lookup key with
  | some v => v
  | none => JsVal.undefined

/-! ## Integers in a JSON text -/

/-- The number of low binary digits that do not fit in a 53-bit significand:
the least `e` with `n / 2 ^ e < 2 ^ 53`, given enough `fuel` (`fuel = n` is
enough). -/
def excessBits : Nat → Nat → Nat
  | 0, _ => 0
  | fuel + 1, n => if n < 2 ^ 53 then 0 else excessBits fuel (n / 2) + 1

/-- The value of the binary64 number nearest to the natural number `n` (round
to nearest, ties to even), as `JSON.parse` computes it for an integer literal;
`none` when the literal overflows to `Infinity`, which the model does not hold. -/
def binary64OfNat (n : Nat) : Option Nat :=
  if n < 2 ^ 53 then some n
  else
    let e := excessBits n n
    let q := n / 2 ^ e
    let r := n % 2 ^ e
    let m := if 2 ^ (e - 1) < r || (r == 2 ^ (e - 1) && q % 2 == 1) then q + 1 else q
    if m * 2 ^ e < 2 ^ 256 * 2 ^ 256 * 2 ^ 256 * 2 ^ 256 then some (m * 2 ^ e) else none

/-- The value that `JSON.parse` gives to the integer literal `n`: the nearest
binary64 number, by sign and magnitude. -/
def binary64 : Int → Option Int
  | .ofNat k => (binary64OfNat k).map Int.ofNat
  | .negSucc k => (binary64OfNat (k + 1)).map (fun m => - Int.ofNat m)

/-- The value read by a handler from a body whose JSON text carries the integer
literal `n`. -/
def jsonInteger (n : Int) : Option JsVal := (binary64 n).map JsVal.num

/-! ## `String.prototype.trim` -/

/-- The code points stripped by `String.prototype.trim`: ECMAScript `WhiteSpace`
(TAB, VT, FF, ZWNBSP and the Unicode space separators) and `LineTerminator`
(LF, CR, LS, PS). -/
def isJsWhitespace (c : Char) : Bool :=
  let n := c.toNat
  n == 0x09 || n == 0x0A || n == 0x0B || n == 0x0C || n == 0x0D || n == 0x20 ||
  n == 0xA0 || n == 0x1680 || (0x2000 ≤ n && n ≤ 0x200A) || n == 0x2028 ||
  n == 0x2029 || n == 0x202F || n == 0x205F || n == 0x3000 || n == 0xFEFF

/-- The characters left by `trim`: leading and trailing white space removed. -/
def trimChars (cs : List Char) : List Char :=
  List.rdropWhile isJsWhitespace (cs.dropWhile isJsWhitespace)

/-- The method `String.prototype.trim`. -/
def jsTrim (s : String) : String := String.mk (trimChars s.data)

/-- A string has no leading white space: it is empty or its first character is
not white space. -/
def noLeadingWs (s : String) : Prop :=
  ∀ c, s.data.head? = some c → isJsWhitespace c = false

/-- A string has no trailing white space: it is empty or its last character is
not white space. -/
def noTrailingWs (s : String) : Prop :=
  ∀ c, s.data.getLast? = some c → isJsWhitespace c = false

instance (s : String) : Decidable (noLeadingWs s) := by
  unfold noLeadingWs
  cases h : s.data.head? with
  | none => exact isTrue (fun c hc => by cases hc)
  | some d =>
    exact decidable_of_iff (isJsWhitespace d = false)
      ⟨fun hd c hc => by cases hc; exact hd, fun hall => hall d rfl⟩

instance (s : String) : Decidable (noTrailingWs s) := by
  unfold noTrailingWs
  cases h : s.data.getLast? with
  | none => exact isTrue (fun c hc => by cases hc)
  | some d =>
    exact decidable_of_iff (isJsWhitespace d = false)
      ⟨fun hd c hc => by cases hc; exact hd, fun hall => hall d rfl⟩

/-! ## The server (`src/server.js`) -/

namespace Server

/-- A book record `{ id, title, author, year }`.  `year` holds whatever value
the handlers stored: any truthy value of the request body, or a number. -/
structure Book where
  id : Int
  title : String
  author : String
  year : JsVal

/-- The module-level state: `let books = [...]` and `let nextId`. -/
structure Store where
  books : List Book
  nextId : Int

/-- The initial value of `books` (lines 23-27). -/
def seedBooks : List Book :=
  [ { id := 1, title := "The Great Gatsby", author := "F. Scott Fitzgerald", year := .num 1925 },
    { id := 2, title := "To Kill a Mockingbird", author := "Harper Lee", year := .num 1960 },
    { id := 3, title := "1984", author := "George Orwell", year := .num 1949 } ]

/-- The state at start-up: the three seeded books and `nextId = 4`. -/
def seed : Store := { books := seedBooks, nextId := 4 }

/-- The JSON body of a response. -/
inductive ResBody where
  /-- The body `{ success: true, count, data }` of `GET /books`. -/
  | list (count : Nat) (data : List Book)
  /-- The body `{ success: true, data }` of `GET /books/:id`. -/
  | item (data : Book)
  /-- The body `{ success: true, message, data }` of a mutation. -/
  | done (message : String) (data : Book)
  /-- The body `{ error, message }` of a failure. -/
  | error (error : String) (message : String)

/-- A response: `res.status(status).json(body)`. -/
structure Response where
  status : Nat
  body : ResBody

/-- The `error` field of a response body, when it has one. -/
def Response.errorKind (r : Response) : Option String :=
  match r.body with
  | .error e _ => some e
  | _ => none

/-- The single record in the `data` field of a response body, when it has one. -/
def Response.book? (r : Response) : Option Book :=
  match r.body with
  | .item b => some b
  | .done _ b => some b
  | _ => none

/-- The `count` field of a response body, when it has one. -/
def Response.count? (r : Response) : Option Nat :=
  match r.body with
  | .list n _ => some n
  | _ => none

/-- The list in the `data` field of the body of `GET /books`. -/
def Response.books? (r : Response) : Option (List Book) :=
  match r.body with
  | .list _ bs => some bs
  | _ => none

/-- The text of `parseInt(req.params.id)` inside a template literal, in decimal
digits (the exponent form of a magnitude of `10^21` or more is not modelled). -/
def idText : Option Int → String
  | some n => toString n
  | none => "NaN"

/-- The 404 response shared by the three `/books/:id` handlers. -/
def notFound (id : Option Int) : Response :=
  { status := 404, body := .error "Not Found" ("Book with ID " ++ idText id ++ " not found") }

/-- The response of `errorHandler` (lines 40-46). -/
def internalError (message : String) : Response :=
  { status := 500, body := .error "Internal Server Error" message }

/-- The middleware `validateBook` (lines 49-67): `some r` when it answers `r`
itself, `none` when it calls `next()`. -/
def validateBook (body : JsObj) : Option Response :=
  let title := body.get "title"
  let author := body.get "author"
  if !title.truthy || !author.truthy then
    some { status := 400,
           body := .error "Validation Error" "Title and author are required fields" }
  else if !title.isString || !author.isString then
    some { status := 400,
           body := .error "Validation Error" "Title and author must be strings" }
  else none

/-- The comparison `b.id === id` of the `find` and `findIndex` callbacks; it is
false for every record when `id` is `NaN`. -/
def idIs (id : Option Int) (b : Book) : Bool := id == some b.id

/-- The method `Array.prototype.findIndex`: the first index whose element
satisfies `p`, or `none` for `-1`. -/
def findIndex (p : Book → Bool) : List Book → Option Nat
  | [] => none
  | b :: bs => if p b then some 0 else (findIndex p bs).map (· + 1)

/-- The handler of `GET /books` (lines 77-87). -/
def getBooks (s : Store) : Store × Response :=
  (s, { status := 200, body := .list s.books.length s.books })

/-- The handler of `GET /books/:id` (lines 90-109). -/
def getBook (s : Store) (id : Option Int) : Store × Response :=
  match s.books.find? (idIs id) with
  | none => (s, notFound id)
  | some book => (s, { status := 200, body := .item book })

/-- The route handler of `POST /books` (lines 113-132), run after `validateBook`
has called `next()`.  Calling `.trim()` on a value that is not a string throws;
the exception ends in `errorHandler`. -/
def createBook (now : Int) (s : Store) (body : JsObj) : Store × Response :=
  match body.get "title", body.get "author" with
  | .str title, .str author =>
    let newBook : Book :=
      { id := s.nextId,
        title := jsTrim title,
        author := jsTrim author,
        year := (body.get "year").or (.num now) }
    ({ books := s.books ++ [newBook], nextId := s.nextId + 1 },
     { status := 201, body := .done "Book created successfully" newBook })
  | _, _ => (s, internalError "next is not defined")

/-- The route `POST /books` (line 112): `validateBook`, then the handler. -/
def postBook (now : Int) (s : Store) (body : JsObj) : Store × Response :=
  match validateBook body with
  | some r => (s, r)
  | none => createBook now s body

/-- The route handler of `PUT /books/:id` (lines 137-164), run after
`validateBook` has called `next()`. -/
def updateBook (s : Store) (id : Option Int) (body : JsObj) : Store × Response :=
  match findIndex (idIs id) s.books with
  | none => (s, notFound id)
  | some bookIndex =>
    match s.books[bookIndex]?, body.get "title", body.get "author" with
    | some old, .str title, .str author =>
      let updated : Book :=
        { old with
          title := jsTrim title,
          author := jsTrim author,
          year := (body.get "year").or old.year }
      ({ s with books := s.books.set bookIndex updated },
       { status := 200, body := .done "Book updated successfully" updated })
    | _, _, _ => (s, internalError "next is not defined")

/-- The route `PUT /books/:id` (line 136): `validateBook`, then the handler. -/
def putBook (s : Store) (id : Option Int) (body : JsObj) : Store × Response :=
  match validateBook body with
  | some r => (s, r)
  | none => updateBook s id body

/-- The handler of `DELETE /books/:id` (lines 168-190): `splice(bookIndex, 1)`
removes the element at `bookIndex` and yields it. -/
def deleteBook (s : Store) (id : Option Int) : Store × Response :=
  match findIndex (idIs id) s.books with
  | none => (s, notFound id)
  | some bookIndex =>
    match s.books[bookIndex]? with
    | some deletedBook =>
      ({ s with books := s.books.eraseIdx bookIndex },
       { status := 200, body := .done "Book deleted successfully" deletedBook })
    | none => (s, internalError "next is not defined")

/-- A request to one of the five `/books` routes. -/
inductive Request where
  | getBooks
  | getBook (id : Option Int)
  | postBook (body : JsObj)
  | putBook (id : Option Int) (body : JsObj)
  | deleteBook (id : Option Int)

/-- One request handled to completion; `now` is the calendar year at that
moment. -/
def handle (now : Int) (s : Store) : Request → Store × Response
  | .getBooks => getBooks s
  | .getBook id => getBook s id
  | .postBook body => postBook now s body
  | .putBook id body => putBook s id body
  | .deleteBook id => deleteBook s id

/-- A sequence of requests handled one after the other, each paired with the
calendar year at which it is handled: the final store and the responses in
order. -/
def run (s : Store) : List (Int × Request) → Store × List Response
  | [] => (s, [])
  | (now, r) :: rest =>
    let (s1, resp) := handle now s r
    let (s2, resps) := run s1 rest
    (s2, resp :: resps)

/-- The store after a sequence of requests. -/
def after (s : Store) (reqs : List (Int × Request)) : Store := (run s reqs).1

/-- The ids of the records of a store, in collection order. -/
def ids (s : Store) : List Int := s.books.map (·.id)

/-- The ids handed out by the responses `resps`: the id of the record of each
`201` response. -/
def createdIds (resps : List Response) : List Int :=
  (resps.filter (·.status == 201)).filterMap (fun r => r.book?.map (·.id))

/-- Every id that was ever assigned while handling `reqs` from `s`: the ids in
`s` to begin with and the ids handed out since. -/
def assignedIds (s : Store) (reqs : List (Int × Request)) : List Int :=
  ids s ++ createdIds (run s reqs).2

/-- The store invariant: ids are pairwise distinct and below `nextId`. -/
def Inv (s : Store) : Prop := (ids s).Nodup ∧ ∀ i ∈ ids s, i < s.nextId

/-- Every stored title and author is free of leading and trailing white
space. -/
def StringsTrimmed (s : Store) : Prop :=
  ∀ b ∈ s.books, (noLeadingWs b.title ∧ noTrailingWs b.title) ∧
    (noLeadingWs b.author ∧ noTrailingWs b.author)

/-- The record that `POST /books` builds from the strings `title` and `author`
of a validated body. -/
def newBookOf (now : Int) (s : Store) (title author : String) (body : JsObj) : Book :=
  { id := s.nextId, title := jsTrim title, author := jsTrim author,
    year := (body.get "year").or (.num now) }

/-- The record that `PUT /books/:id` builds from the record `old` and the
strings `title` and `author` of a validated body. -/
def updatedOf (old : Book) (title author : String) (body : JsObj) : Book :=
  { id := old.id, title := jsTrim title, author := jsTrim author,
    year := (body.get "year").or old.year }

end Server

/-! ## The browser client (`src/public/static/script.js`) -/

namespace Client

open Server (Book)

/-- The text of one character in the `innerHTML` of an element whose only child
is a text node (the escaping of the HTML fragment serialisation algorithm,
outside attribute mode). -/
def escapeChar (c : Char) : List Char :=
  if c = '&' then "&amp;".data
  else if c.toNat = 0xA0 then "&nbsp;".data
  else if c = '<' then "&lt;".data
  else if c = '>' then "&gt;".data
  else [c]

/-- The function `escapeHtml` (lines 228-232): `div.textContent = text`, then
`div.innerHTML`. -/
def escapeHtml (text : String) : String :=
  String.mk (text.data.flatMap escapeChar)

/-- The markup of one card: the template literal of lines 79-93 applied to one
book. -/
def bookCard (book : Book) : String :=
  "\n        <div class=\"book-card\">\n            <div class=\"book-title\">"
    ++ escapeHtml book.title
    ++ "</div>\n            <div class=\"book-author\">by "
    ++ escapeHtml book.author
    ++ "</div>\n            <div class=\"book-year\">📅 "
    ++ (book.year.or (.str "Unknown")).toJsString
    ++ "</div>\n            <div class=\"book-actions\">\n                <button class=\"btn btn-update\" onclick=\"editBook("
    ++ toString book.id
    ++ ")\">\n                    ✏️ Edit\n                </button>\n                <button class=\"btn btn-delete\" onclick=\"deleteBook("
    ++ toString book.id
    ++ ")\">\n                    🗑️ Delete\n                </button>\n            </div>\n        </div>\n    "

/-- The markup shown for an empty list (lines 70-75). -/
def emptyState : String :=
  "\n            <div class=\"empty-state\">\n                <h3>No books found</h3>\n                <p>Add your first book using the form above!</p>\n            </div>\n        "

/-- The function `displayBooks` (lines 68-94): the string it assigns to
`booksGrid.innerHTML`. -/
def displayBooks (books : List Book) : String :=
  if books.length = 0 then emptyState
  else String.join (books.map bookCard)

/-- The constant `API_BASE` (line 1). -/
def API_BASE : String := "http://localhost:3000"

/-- The HTTP method of a `fetch`. -/
inductive Method where
  | GET | POST | PUT | DELETE
  deriving DecidableEq

/-- A request issued with `fetch(url, { method })`. -/
structure Call where
  method : Method
  url : String
  deriving DecidableEq

/-- How a `fetch` and the reading of its body turn out. -/
inductive Outcome where
  /-- The promise of `fetch` rejects (the server cannot be reached). -/
  | networkError
  /-- A response arrives (`ok` is `response.ok`) and `response.json()` rejects,
  or yields `null`, on which reading `success` throws. -/
  | badBody (ok : Bool)
  /-- A response arrives and its body parses to `result`; `success` is the
  truthiness of `result.success`, and `hasData` tells that `result.data` is
  neither `null` nor `undefined` (reading a property of it does not throw). -/
  | parsed (ok : Bool) (success : Bool) (hasData : Bool)

/-- The controller state: the module variable `editingId` (line 2), `none` for
`null`. -/
structure Controller where
  editingId : Option Int
  deriving DecidableEq

/-- The state at page load: `let editingId = null`. -/
def init : Controller := { editingId := none }

/-- Truthiness of `editingId`: `null` and `0` are falsy. -/
def editingTruthy : Option Int → Bool
  | none => false
  | some n => n != 0

/-- The function `resetForm` (lines 213-218). -/
def resetForm (_c : Controller) : Controller := { editingId := none }

/-- The request chosen by the submit handler (lines 120-121): both conditionals
test the truthiness of `editingId`. -/
def submitCall (editingId : Option Int) : Call :=
  match editingId with
  | some n =>
    if n != 0 then { method := .PUT, url := API_BASE ++ "/books/" ++ toString n }
    else { method := .POST, url := API_BASE ++ "/books" }
  | none => { method := .POST, url := API_BASE ++ "/books" }

/-- The submit handler of `bookForm` (lines 102-159) on the form values `title`
and `author`: the state afterwards and the request it sent, if any.  A status
that is not OK throws before the body is read. -/
def submit (c : Controller) (title author : String) (o : Outcome) :
    Controller × Option Call :=
  if (jsTrim title).data == [] || (jsTrim author).data == [] then (c, none)
  else
    match o with
    | .networkError => (c, some (submitCall c.editingId))
    | .badBody _ => (c, some (submitCall c.editingId))
    | .parsed false _ _ => (c, some (submitCall c.editingId))
    | .parsed true false _ => (c, some (submitCall c.editingId))
    | .parsed true true _ => (resetForm c, some (submitCall c.editingId))

/-- The function `editBook` (lines 162-186).  `response.ok` is not consulted;
with a truthy `success`, reading `book.title` of a missing `data` throws before
`editingId` is assigned. -/
def editBook (c : Controller) (id : Int) (o : Outcome) : Controller × Option Call :=
  let call : Call := { method := .GET, url := API_BASE ++ "/books/" ++ toString id }
  match o with
  | .networkError => (c, some call)
  | .badBody _ => (c, some call)
  | .parsed _ false _ => (c, some call)
  | .parsed _ true false => (c, some call)
  | .parsed _ true true => ({ editingId := some id }, some call)

/-- The function `deleteBook` (lines 189-210); `confirmed` is the answer to the
`confirm` dialog.  It never assigns `editingId`. -/
def deleteBook (c : Controller) (id : Int) (confirmed : Bool) (_o : Outcome) :
    Controller × Option Call :=
  if confirmed then
    (c, some { method := .DELETE, url := API_BASE ++ "/books/" ++ toString id })
  else (c, none)

/-- The click handler of `cancelBtn` (lines 221-225). -/
def cancelClick (c : Controller) : Controller := resetForm c

/-- The `keydown` handler (lines 235-239). -/
def keydown (c : Controller) (key : String) : Controller :=
  if key = "Escape" && editingTruthy c.editingId then cancelClick c else c

/-- An outcome on which the submit handler takes its `catch` path: the `fetch`
rejects, the status is not OK, the body does not parse, or `success` is falsy. -/
def Outcome.submitFails : Outcome → Bool
  | .parsed true true _ => false
  | _ => true

/-- An outcome on which `editBook` takes its `catch` path: the `fetch` rejects,
the body does not parse, `success` is falsy, or `data` is missing.  The status
plays no part. -/
def Outcome.editFails : Outcome → Bool
  | .parsed _ true true => false
  | _ => true

/-- The failure of a request as the specification words it: a network error, a
status that is not OK, or a `success` that is not true. -/
def Outcome.specFails : Outcome → Bool
  | .networkError => true
  | .badBody _ => true
  | .parsed ok success _ => !ok || !success

/-- The property `response.ok`: a status in the range 200-299. -/
def statusOk (status : Nat) : Bool := decide (200 ≤ status) && decide (status ≤ 299)

/-- What the client reads from a response of the server of `src/server.js`:
`response.ok` from the status, and `result.success` and `result.data` from the
body, which carries both or neither. -/
def outcomeOf (r : Server.Response) : Outcome :=
  match r.body with
  | .list _ _ => .parsed (statusOk r.status) true true
  | .item _ => .parsed (statusOk r.status) true true
  | .done _ _ => .parsed (statusOk r.status) true true
  | .error _ _ => .parsed (statusOk r.status) false false

end Client

/-! ## Lemmas on the server operations -/

namespace Server

theorem findIndex_eq_none_iff (p : Book → Bool) (l : List Book) :
    findIndex p l = none ↔ ∀ b ∈ l, p b = false := by
  induction l with
  | nil => simp [findIndex]
  | cons x xs ih =>
    by_cases hx : p x = true
    · simp [findIndex, hx]
    · simp only [Bool.not_eq_true] at hx
      simp [findIndex, hx, ih]

theorem findIndex_some_spec (p : Book → Bool) (l : List Book) (i : Nat)
    (h : findIndex p l = some i) :
    ∃ b, l[i]? = some b ∧ p b = true ∧ ∀ c ∈ l.take i, p c = false := by
  induction l generalizing i with
  | nil => simp [findIndex] at h
  | cons x xs ih =>
    by_cases hx : p x = true
    · simp [findIndex, hx] at h
      subst h
      exact ⟨x, by simp, hx, by simp⟩
    · simp only [Bool.not_eq_true] at hx
      simp only [findIndex, hx, Bool.false_eq_true, if_false, Option.map_eq_some'] at h
      obtain ⟨j, hj, rfl⟩ := h
      obtain ⟨b, hb, hpb, hpre⟩ := ih j hj
      refine ⟨b, by simpa using hb, hpb, ?_⟩
      intro c hc
      simp only [List.take_succ_cons, List.mem_cons] at hc
      rcases hc with rfl | hc
      · exact hx
      · exact hpre c hc

theorem findIndex_isSome_of_mem (p : Book → Bool) (l : List Book) (b : Book)
    (hb : b ∈ l) (hp : p b = true) : ∃ i, findIndex p l = some i := by
  cases h : findIndex p l with
  | some i => exact ⟨i, rfl⟩
  | none =>
    have := (findIndex_eq_none_iff p l).1 h b hb
    simp [hp] at this

/-- The middleware lets a body through exactly when `title` and `author` are
non-empty strings. -/
theorem validateBook_eq_none_iff (body : JsObj) :
    validateBook body = none ↔
      ∃ t a, body.get "title" = .str t ∧ body.get "author" = .str a ∧
        t.data ≠ [] ∧ a.data ≠ [] := by
  unfold validateBook
  cases ht : body.get "title" <;> cases ha : body.get "author" <;>
    simp [JsVal.truthy, JsVal.isString]
  all_goals (split <;> simp)

/-- A body whose `title` or `author` is not a string is answered by the
middleware with one of its two 400 responses. -/
theorem validateBook_rejects (body : JsObj)
    (h : (body.get "title").isString = false ∨ (body.get "author").isString = false) :
    ∃ r, validateBook body = some r ∧ r.status = 400 ∧
      r.errorKind = some "Validation Error" := by
  cases hv : validateBook body with
  | none =>
    obtain ⟨t, a, ht, ha, -, -⟩ := (validateBook_eq_none_iff body).1 hv
    simp [ht, ha, JsVal.isString] at h
  | some r =>
    refine ⟨r, rfl, ?_⟩
    simp only [validateBook] at hv
    split_ifs at hv <;> cases hv <;> exact ⟨rfl, rfl⟩

/-- An id that matches no record is not found by `findIndex`. -/
theorem findIndex_unknown (s : Store) (id : Option Int)
    (h : ∀ b ∈ s.books, id ≠ some b.id) : findIndex (idIs id) s.books = none := by
  rw [findIndex_eq_none_iff]
  intro b hb
  simpa [idIs] using h b hb

/-- The first record matched by `findIndex (idIs (some id))` carries the id. -/
theorem findIndex_known (s : Store) (id : Int) (h : id ∈ ids s) :
    ∃ i old, findIndex (idIs (some id)) s.books = some i ∧ s.books[i]? = some old ∧
      old.id = id ∧ ∀ c ∈ s.books.take i, c.id ≠ id := by
  simp only [ids, List.mem_map] at h
  obtain ⟨b, hb, hbid⟩ := h
  obtain ⟨i, hi⟩ := findIndex_isSome_of_mem (idIs (some id)) s.books b hb (by simp [idIs, hbid])
  obtain ⟨old, hold, hp, hpre⟩ := findIndex_some_spec _ _ _ hi
  refine ⟨i, old, hi, hold, ?_, ?_⟩
  · simp only [idIs, beq_iff_eq, Option.some.injEq] at hp
    exact hp.symm
  · intro c hc hcid
    have := hpre c hc
    simp [idIs, hcid] at this

theorem postBook_invalid (now : Int) (s : Store) (body : JsObj) (r : Response)
    (h : validateBook body = some r) : postBook now s body = (s, r) := by
  simp [postBook, h]

theorem postBook_valid (now : Int) (s : Store) (body : JsObj) (t a : String)
    (ht : body.get "title" = .str t) (ha : body.get "author" = .str a)
    (hv : validateBook body = none) :
    postBook now s body =
      ({ books := s.books ++ [newBookOf now s t a body], nextId := s.nextId + 1 },
       { status := 201, body := .done "Book created successfully" (newBookOf now s t a body) }) := by
  simp [postBook, hv, createBook, ht, ha, newBookOf]

theorem putBook_invalid (s : Store) (id : Option Int) (body : JsObj) (r : Response)
    (h : validateBook body = some r) : putBook s id body = (s, r) := by
  simp [putBook, h]

theorem putBook_unknown (s : Store) (id : Option Int) (body : JsObj)
    (hv : validateBook body = none) (hi : findIndex (idIs id) s.books = none) :
    putBook s id body = (s, notFound id) := by
  simp [putBook, hv, updateBook, hi]

theorem putBook_known (s : Store) (id : Option Int) (body : JsObj) (t a : String)
    (i : Nat) (old : Book)
    (ht : body.get "title" = .str t) (ha : body.get "author" = .str a)
    (hv : validateBook body = none) (hi : findIndex (idIs id) s.books = some i)
    (hold : s.books[i]? = some old) :
    putBook s id body =
      ({ books := s.books.set i (updatedOf old t a body), nextId := s.nextId },
       { status := 200, body := .done "Book updated successfully" (updatedOf old t a body) }) := by
  simp [putBook, hv, updateBook, hi, hold, ht, ha, updatedOf]

theorem deleteBook_unknown (s : Store) (id : Option Int)
    (hi : findIndex (idIs id) s.books = none) :
    deleteBook s id = (s, notFound id) := by
  simp [deleteBook, hi]

theorem deleteBook_known (s : Store) (id : Option Int) (i : Nat) (old : Book)
    (hi : findIndex (idIs id) s.books = some i) (hold : s.books[i]? = some old) :
    deleteBook s id =
      ({ books := s.books.eraseIdx i, nextId := s.nextId },
       { status := 200, body := .done "Book deleted successfully" old }) := by
  simp [deleteBook, hi, hold]

theorem getBook_fst (s : Store) (id : Option Int) : (getBook s id).1 = s := by
  unfold getBook
  split <;> rfl

theorem ids_set_updatedOf (l : List Book) (i : Nat) (old : Book) (t a : String)
    (body : JsObj) (hold : l[i]? = some old) :
    (l.set i (updatedOf old t a body)).map (·.id) = l.map (·.id) := by
  induction l generalizing i with
  | nil => simp
  | cons x xs ih =>
    cases i with
    | zero =>
      simp only [List.getElem?_cons_zero, Option.some.injEq] at hold
      subst hold
      simp [updatedOf]
    | succ j =>
      simp only [List.getElem?_cons_succ] at hold
      simp [ih j hold]

theorem inv_seed : Inv seed := by
  refine ⟨by decide, ?_⟩
  intro i hi
  have : i = 1 ∨ i = 2 ∨ i = 3 := by simpa [ids, seed, seedBooks] using hi
  rcases this with rfl | rfl | rfl <;> decide

/-- How one request changes the store: not at all, by appending a record with
id `nextId` and advancing `nextId`, by replacing a record by one of the same id,
or by removing one record. -/
theorem handle_store_cases (now : Int) (s : Store) (r : Request) :
    (handle now s r).1 = s ∨
    (∃ t a body,
      (handle now s r).1 = { books := s.books ++ [newBookOf now s t a body],
                             nextId := s.nextId + 1 }) ∨
    (∃ i old t a body, s.books[i]? = some old ∧
      (handle now s r).1 = { books := s.books.set i (updatedOf old t a body),
                             nextId := s.nextId }) ∨
    (∃ i, (handle now s r).1 = { books := s.books.eraseIdx i, nextId := s.nextId }) := by
  cases r with
  | getBooks => exact Or.inl rfl
  | getBook id => exact Or.inl (getBook_fst s id)
  | postBook body =>
    cases hv : validateBook body with
    | some r => exact Or.inl (by simp [handle, postBook_invalid now s body r hv])
    | none =>
      obtain ⟨t, a, ht, ha, -, -⟩ := (validateBook_eq_none_iff body).1 hv
      exact Or.inr (Or.inl ⟨t, a, body,
        by simp [handle, postBook_valid now s body t a ht ha hv]⟩)
  | putBook id body =>
    cases hv : validateBook body with
    | some r => exact Or.inl (by simp [handle, putBook_invalid s id body r hv])
    | none =>
      obtain ⟨t, a, ht, ha, -, -⟩ := (validateBook_eq_none_iff body).1 hv
      cases hi : findIndex (idIs id) s.books with
      | none => exact Or.inl (by simp [handle, putBook_unknown s id body hv hi])
      | some i =>
        obtain ⟨old, hold, -, -⟩ := findIndex_some_spec _ _ _ hi
        exact Or.inr (Or.inr (Or.inl ⟨i, old, t, a, body, hold,
          by simp [handle, putBook_known s id body t a i old ht ha hv hi hold]⟩))
  | deleteBook id =>
    cases hi : findIndex (idIs id) s.books with
    | none => exact Or.inl (by simp [handle, deleteBook_unknown s id hi])
    | some i =>
      obtain ⟨old, hold, -, -⟩ := findIndex_some_spec _ _ _ hi
      exact Or.inr (Or.inr (Or.inr ⟨i, by simp [handle, deleteBook_known s id i old hi hold]⟩))

/-- Every request preserves the store invariant. -/
theorem inv_handle (now : Int) (s : Store) (r : Request) (h : Inv s) :
    Inv (handle now s r).1 := by
  obtain ⟨hnd, hlt⟩ := h
  rcases handle_store_cases now s r with
    h1 | ⟨t0, a0, body0, h1⟩ | ⟨i, old, t, a, body, hold, h1⟩ | ⟨i, h1⟩
  · rw [h1]; exact ⟨hnd, hlt⟩
  · rw [h1]
    have hb : (newBookOf now s t0 a0 body0).id = s.nextId := rfl
    constructor
    · simp only [ids, List.map_append, List.map_cons, List.map_nil]
      rw [List.nodup_append]
      refine ⟨hnd, by simp, ?_⟩
      intro x hx hx2
      simp only [List.mem_singleton] at hx2
      have := hlt x hx
      omega
    · intro x hx
      simp only [ids, List.map_append, List.map_cons, List.map_nil, List.mem_append,
        List.mem_singleton] at hx
      rcases hx with hx | hx
      · have := hlt x hx
        show x < s.nextId + 1
        omega
      · show x < s.nextId + 1
        omega
  · rw [h1]
    simp only [Inv, ids, ids_set_updatedOf s.books i old t a body hold]
    exact ⟨hnd, hlt⟩
  · rw [h1]
    have hsub : ((s.books.eraseIdx i).map (·.id)).Sublist (s.books.map (·.id)) :=
      (List.eraseIdx_sublist s.books i).map _
    exact ⟨hnd.sublist hsub, fun x hx => hlt x (hsub.subset hx)⟩

/-- The counter `nextId` never decreases. -/
theorem nextId_le_handle (now : Int) (s : Store) (r : Request) :
    s.nextId ≤ (handle now s r).1.nextId := by
  rcases handle_store_cases now s r with
    h1 | ⟨t0, a0, body0, h1⟩ | ⟨i, old, t, a, body, hold, h1⟩ | ⟨i, h1⟩
    <;> simp [h1]

theorem run_cons (s : Store) (now : Int) (r : Request) (rest : List (Int × Request)) :
    run s ((now, r) :: rest) =
      ((run (handle now s r).1 rest).1, (handle now s r).2 :: (run (handle now s r).1 rest).2) := by
  rfl

theorem after_cons (s : Store) (now : Int) (r : Request) (rest : List (Int × Request)) :
    after s ((now, r) :: rest) = after (handle now s r).1 rest := by
  rfl

/-- Every sequence of requests preserves the store invariant. -/
theorem inv_after (s : Store) (reqs : List (Int × Request)) (h : Inv s) :
    Inv (after s reqs) := by
  induction reqs generalizing s with
  | nil => exact h
  | cons x rest ih =>
    obtain ⟨now, r⟩ := x
    rw [after_cons]
    exact ih _ (inv_handle now s r h)

/-- A `201` response comes only from `POST /books` with a validated body; its
record carries the old `nextId`, and `nextId` advances by one. -/
theorem handle_created (now : Int) (s : Store) (r : Request)
    (h : (handle now s r).2.status = 201) :
    ∃ b, (handle now s r).2.book? = some b ∧ b.id = s.nextId ∧
      (handle now s r).1.nextId = s.nextId + 1 := by
  cases r with
  | getBooks => simp [handle, getBooks] at h
  | getBook id =>
    simp only [handle, getBook] at h
    split at h <;> simp [notFound] at h
  | postBook body =>
    cases hv : validateBook body with
    | some r =>
      obtain ⟨r2, hr2, hst, -⟩ : ∃ r2, validateBook body = some r2 ∧ r2.status = 400 ∧
          r2.errorKind = some "Validation Error" := by
        simp only [validateBook] at hv ⊢
        split_ifs at hv ⊢ <;> exact ⟨_, rfl, rfl, rfl⟩
      rw [hv] at hr2
      cases hr2
      simp [handle, postBook_invalid now s body r hv, hst] at h
    | none =>
      obtain ⟨t, a, ht, ha, -, -⟩ := (validateBook_eq_none_iff body).1 hv
      refine ⟨newBookOf now s t a body, ?_, rfl, ?_⟩ <;>
        simp [handle, postBook_valid now s body t a ht ha hv, Response.book?]
  | putBook id body =>
    cases hv : validateBook body with
    | some r =>
      obtain ⟨r2, hr2, hst, -⟩ : ∃ r2, validateBook body = some r2 ∧ r2.status = 400 ∧
          r2.errorKind = some "Validation Error" := by
        simp only [validateBook] at hv ⊢
        split_ifs at hv ⊢ <;> exact ⟨_, rfl, rfl, rfl⟩
      rw [hv] at hr2
      cases hr2
      simp [handle, putBook_invalid s id body r hv, hst] at h
    | none =>
      obtain ⟨t, a, ht, ha, -, -⟩ := (validateBook_eq_none_iff body).1 hv
      cases hi : findIndex (idIs id) s.books with
      | none => simp [handle, putBook_unknown s id body hv hi, notFound] at h
      | some i =>
        obtain ⟨old, hold, -, -⟩ := findIndex_some_spec _ _ _ hi
        simp [handle, putBook_known s id body t a i old ht ha hv hi hold] at h
  | deleteBook id =>
    cases hi : findIndex (idIs id) s.books with
    | none => simp [handle, deleteBook_unknown s id hi, notFound] at h
    | some i =>
      obtain ⟨old, hold, -, -⟩ := findIndex_some_spec _ _ _ hi
      simp [handle, deleteBook_known s id i old hi hold] at h

theorem createdIds_cons (r : Response) (rs : List Response) :
    createdIds (r :: rs) =
      (if r.status = 201 then (r.book?.map (·.id)).toList else []) ++ createdIds rs := by
  unfold createdIds
  by_cases h : r.status = 201
  · cases hb : r.book? <;> simp [List.filter_cons, h, hb]
  · simp [List.filter_cons, h]

/-- Ids below `nextId`, and the ids handed out while handling `reqs`, are all
below the final `nextId`. -/
theorem created_lt_nextId (s : Store) (reqs : List (Int × Request)) (L : List Int)
    (hL : ∀ i ∈ L, i < s.nextId) :
    ∀ i ∈ L ++ createdIds (run s reqs).2, i < (after s reqs).nextId := by
  induction reqs generalizing s L with
  | nil =>
    intro i hi
    simp only [run, createdIds, List.filter_nil, List.filterMap_nil, List.append_nil] at hi
    exact hL i hi
  | cons x rest ih =>
    obtain ⟨now, r⟩ := x
    intro i hi
    rw [run_cons, createdIds_cons, ← List.append_assoc] at hi
    rw [after_cons]
    refine ih (handle now s r).1 _ ?_ i hi
    intro j hj
    rw [List.mem_append] at hj
    rcases hj with hj | hj
    · exact lt_of_lt_of_le (hL j hj) (nextId_le_handle now s r)
    · by_cases hst : (handle now s r).2.status = 201
      · obtain ⟨b, hb, hbid, hnext⟩ := handle_created now s r hst
        simp only [hst, if_true, hb, Option.map_some', Option.toList_some,
          List.mem_singleton] at hj
        rw [hj, hbid, hnext]
        omega
      · simp [hst] at hj

end Server

namespace Server

/-- Every request keeps the ids and `nextId` positive. -/
theorem pos_handle (now : Int) (s : Store) (r : Request)
    (h : (∀ i ∈ ids s, 0 < i) ∧ 0 < s.nextId) :
    (∀ i ∈ ids (handle now s r).1, 0 < i) ∧ 0 < (handle now s r).1.nextId := by
  obtain ⟨hpos, hnext⟩ := h
  rcases handle_store_cases now s r with
    h1 | ⟨t0, a0, body0, h1⟩ | ⟨i, old, t, a, body, hold, h1⟩ | ⟨i, h1⟩
  · rw [h1]; exact ⟨hpos, hnext⟩
  · rw [h1]
    constructor
    · intro x hx
      simp only [ids, List.map_append, List.map_cons, List.map_nil, List.mem_append,
        List.mem_singleton] at hx
      rcases hx with hx | hx
      · exact hpos x hx
      · rw [hx]; exact hnext
    · show 0 < s.nextId + 1
      omega
  · rw [h1]
    simp only [ids, ids_set_updatedOf s.books i old t a body hold]
    exact ⟨hpos, hnext⟩
  · rw [h1]
    have hsub : ((s.books.eraseIdx i).map (·.id)).Sublist (s.books.map (·.id)) :=
      (List.eraseIdx_sublist s.books i).map _
    exact ⟨fun x hx => hpos x (hsub.subset hx), hnext⟩

/-- Every id that the server lists, in any store reachable from the seed, is
positive. -/
theorem ids_pos_after (reqs : List (Int × Request)) :
    ∀ i ∈ ids (after seed reqs), 0 < i := by
  suffices h : ∀ s, ((∀ i ∈ ids s, 0 < i) ∧ 0 < s.nextId) →
      ((∀ i ∈ ids (after s reqs), 0 < i) ∧ 0 < (after s reqs).nextId) from
    (h seed ⟨by decide, by decide⟩).1
  induction reqs with
  | nil => exact fun s hs => hs
  | cons x rest ih =>
    obtain ⟨now, r⟩ := x
    intro s hs
    rw [after_cons]
    exact ih _ (pos_handle now s r hs)

end Server

/-! ## Verified properties of the server -/

namespace Server

/-- C1: starting from the seeded state, after every finite sequence of requests
(valid or not) the ids in the collection are pairwise distinct and strictly
below `nextId`; and every `POST /books` answered with `201` after that sequence
returns a record whose id is strictly greater than every id assigned before,
seeded or created, deleted ones included. -/
theorem ids_distinct_and_fresh (reqs : List (Int × Request)) :
    (ids (after seed reqs)).Nodup ∧
    (∀ i ∈ ids (after seed reqs), i < (after seed reqs).nextId) ∧
    (∀ (now : Int) (body : JsObj),
      (postBook now (after seed reqs) body).2.status = 201 →
      ∃ b, (postBook now (after seed reqs) body).2.book? = some b ∧
        ∀ i ∈ assignedIds seed reqs, i < b.id) := by
  have hinv := inv_after seed reqs inv_seed
  refine ⟨hinv.1, hinv.2, ?_⟩
  intro now body hst
  obtain ⟨b, hb, hbid, -⟩ := handle_created now (after seed reqs) (.postBook body) hst
  refine ⟨b, hb, ?_⟩
  intro i hi
  rw [hbid]
  exact created_lt_nextId seed reqs (ids seed) inv_seed.2 i hi

/-- Witness for C1: after creating "Dune" and deleting book 2, the next created
record gets an id above the four ids assigned so far. -/
theorem ids_distinct_and_fresh_witness :
    ∃ b, (postBook 2024
            (after seed
              [(2024, .postBook [("title", .str "Dune"), ("author", .str "Frank Herbert"),
                  ("year", .num 1965)]),
               (2024, .deleteBook (some 2))])
            [("title", .str "A"), ("author", .str "B")]).2.book? = some b ∧
      ∀ i ∈ assignedIds seed
          [(2024, .postBook [("title", .str "Dune"), ("author", .str "Frank Herbert"),
              ("year", .num 1965)]),
           (2024, .deleteBook (some 2))], i < b.id :=
  (ids_distinct_and_fresh _).2.2 2024 [("title", .str "A"), ("author", .str "B")] (by decide)

/-- C2: for every store, every id and every body whose `title` or `author` is
absent or not a string, `POST /books` and `PUT /books/:id` answer 400 with error
"Validation Error" and leave the store (collection and `nextId`) as it was, so
that a following `GET /books` answers the same count and data. -/
theorem invalid_body_rejected (now : Int) (s : Store) (id : Option Int) (body : JsObj)
    (h : (body.get "title").isString = false ∨ (body.get "author").isString = false) :
    ((postBook now s body).2.status = 400 ∧
      (postBook now s body).2.errorKind = some "Validation Error" ∧
      (postBook now s body).1 = s ∧
      (getBooks (postBook now s body).1).2.count? = (getBooks s).2.count? ∧
      (getBooks (postBook now s body).1).2.books? = (getBooks s).2.books?) ∧
    ((putBook s id body).2.status = 400 ∧
      (putBook s id body).2.errorKind = some "Validation Error" ∧
      (putBook s id body).1 = s ∧
      (getBooks (putBook s id body).1).2.count? = (getBooks s).2.count? ∧
      (getBooks (putBook s id body).1).2.books? = (getBooks s).2.books?) := by
  obtain ⟨r, hr, hst, herr⟩ := validateBook_rejects body h
  rw [postBook_invalid now s body r hr, putBook_invalid s id body r hr]
  exact ⟨⟨hst, herr, rfl, rfl, rfl⟩, ⟨hst, herr, rfl, rfl, rfl⟩⟩

/-- Witness for C2: a body with a numeric title, on the seeded store. -/
theorem invalid_body_rejected_witness :
    ((JsObj.get [("title", .num 5), ("author", .str "x")] "title").isString = false ∨
      (JsObj.get [("title", .num 5), ("author", .str "x")] "author").isString = false) ∧
    (postBook 2024 seed [("title", .num 5), ("author", .str "x")]).2.status = 400 ∧
    (putBook seed (some 1) [("title", .num 5), ("author", .str "x")]).1 = seed :=
  ⟨Or.inl (by decide),
   (invalid_body_rejected 2024 seed (some 1) [("title", .num 5), ("author", .str "x")]
      (Or.inl (by decide))).1.1,
   (invalid_body_rejected 2024 seed (some 1) [("title", .num 5), ("author", .str "x")]
      (Or.inl (by decide))).2.2.2.1⟩

/-- C3: for every store and every id that matches no record (`NaN` included),
`PUT /books/:id` with a body that passes validation and `DELETE /books/:id` both
answer 404 with error "Not Found" and leave the collection (contents and order)
and `nextId` unchanged. -/
theorem unknown_id_not_found (s : Store) (id : Option Int) (body : JsObj)
    (hv : validateBook body = none) (hid : ∀ b ∈ s.books, id ≠ some b.id) :
    ((putBook s id body).2.status = 404 ∧
      (putBook s id body).2.errorKind = some "Not Found" ∧
      (putBook s id body).1 = s) ∧
    ((deleteBook s id).2.status = 404 ∧
      (deleteBook s id).2.errorKind = some "Not Found" ∧
      (deleteBook s id).1 = s) := by
  have hi := findIndex_unknown s id hid
  rw [putBook_unknown s id body hv hi, deleteBook_unknown s id hi]
  exact ⟨⟨rfl, rfl, rfl⟩, ⟨rfl, rfl, rfl⟩⟩

/-- Witness for C3: id 9 on the seeded store. -/
theorem unknown_id_not_found_witness :
    validateBook [("title", .str "A"), ("author", .str "B")] = none ∧
    (∀ b ∈ seed.books, some (9 : Int) ≠ some b.id) ∧
    (putBook seed (some 9) [("title", .str "A"), ("author", .str "B")]).2.status = 404 ∧
    (deleteBook seed (some 9)).1 = seed :=
  ⟨rfl, by decide,
   (unknown_id_not_found seed (some 9) [("title", .str "A"), ("author", .str "B")]
      rfl (by decide)).1.1,
   (unknown_id_not_found seed (some 9) [("title", .str "A"), ("author", .str "B")]
      rfl (by decide)).2.2.2⟩

end Server

namespace Server

theorem eraseIdx_eq_filter_of_nodup (l : List Book) (i : Nat) (old : Book)
    (hnd : (l.map (·.id)).Nodup) (hold : l[i]? = some old) :
    l.eraseIdx i = l.filter (fun b => b.id != old.id) := by
  induction l generalizing i with
  | nil => simp
  | cons x xs ih =>
    simp only [List.map_cons, List.nodup_cons, List.mem_map, not_exists, not_and] at hnd
    obtain ⟨hx, hxs⟩ := hnd
    cases i with
    | zero =>
      simp only [List.getElem?_cons_zero, Option.some.injEq] at hold
      subst hold
      simp only [List.eraseIdx_cons_zero, List.filter_cons, bne_self_eq_false,
        Bool.false_eq_true, if_false]
      symm
      rw [List.filter_eq_self]
      intro b hb
      simp only [bne_iff_ne, ne_eq]
      exact hx b hb
    | succ j =>
      simp only [List.getElem?_cons_succ] at hold
      have hmem : old ∈ xs := List.getElem?_mem hold
      have hne : x.id ≠ old.id := fun h => hx old hmem h.symm
      simp [List.filter_cons, hne, ih j hxs hold]

/-- C4: for every store, every id of a record in the collection and every body
that passes validation (whatever other properties it carries), `PUT /books/:id`
answers 200 with, and stores at the record's position, a record with the same
id, the trimmed `title` and `author` of the body, and the body's `year` when
that is truthy, else (omitted, `0`, or any falsy value) the record's prior
year; every other position, the length and `nextId` are unchanged. -/
theorem put_known_updates (s : Store) (id : Int) (body : JsObj)
    (hv : validateBook body = none) (hid : id ∈ ids s) :
    ∃ i old t a upd,
      findIndex (idIs (some id)) s.books = some i ∧ s.books[i]? = some old ∧ old.id = id ∧
      body.get "title" = .str t ∧ body.get "author" = .str a ∧
      upd.id = id ∧ upd.title = jsTrim t ∧ upd.author = jsTrim a ∧
      ((body.get "year").truthy = true → upd.year = body.get "year") ∧
      ((body.get "year").truthy = false → upd.year = old.year) ∧
      (putBook s (some id) body).2.status = 200 ∧
      (putBook s (some id) body).2.book? = some upd ∧
      (putBook s (some id) body).1.books[i]? = some upd ∧
      (∀ j, j ≠ i → (putBook s (some id) body).1.books[j]? = s.books[j]?) ∧
      (putBook s (some id) body).1.books.length = s.books.length ∧
      (putBook s (some id) body).1.nextId = s.nextId := by
  obtain ⟨t, a, ht, ha, -, -⟩ := (validateBook_eq_none_iff body).1 hv
  obtain ⟨i, old, hi, hold, hoid, -⟩ := findIndex_known s id hid
  have hlt : i < s.books.length := by
    rcases List.getElem?_eq_some_iff.1 hold with ⟨h, -⟩
    exact h
  refine ⟨i, old, t, a, updatedOf old t a body, hi, hold, hoid, ht, ha, hoid, rfl, rfl,
    ?_, ?_, ?_⟩
  · intro hy
    simp [updatedOf, JsVal.or, hy]
  · intro hy
    simp [updatedOf, JsVal.or, hy]
  · rw [putBook_known s (some id) body t a i old ht ha hv hi hold]
    refine ⟨rfl, rfl, ?_, ?_, ?_, rfl⟩
    · simp [hlt]
    · intro j hj
      simp [List.getElem?_set, Ne.symm hj]
    · simp

/-- Witness for C4: updating seeded book 2 with an explicit year 0 and a stray
`id` property in the body. -/
theorem put_known_updates_witness :
    validateBook [("id", .num 99), ("title", .str " New "), ("author", .str "Me"),
      ("year", .num 0)] = none ∧
    (2 : Int) ∈ ids seed ∧
    ∃ i old t a upd,
      findIndex (idIs (some 2)) seed.books = some i ∧ seed.books[i]? = some old ∧ old.id = 2 ∧
      JsObj.get [("id", .num 99), ("title", .str " New "), ("author", .str "Me"),
        ("year", .num 0)] "title" = .str t ∧
      JsObj.get [("id", .num 99), ("title", .str " New "), ("author", .str "Me"),
        ("year", .num 0)] "author" = .str a ∧
      upd.id = 2 ∧ upd.title = jsTrim t ∧ upd.author = jsTrim a ∧
      ((JsObj.get [("id", .num 99), ("title", .str " New "), ("author", .str "Me"),
        ("year", .num 0)] "year").truthy = true →
        upd.year = JsObj.get [("id", .num 99), ("title", .str " New "), ("author", .str "Me"),
          ("year", .num 0)] "year") ∧
      ((JsObj.get [("id", .num 99), ("title", .str " New "), ("author", .str "Me"),
        ("year", .num 0)] "year").truthy = false → upd.year = old.year) ∧
      (putBook seed (some 2) [("id", .num 99), ("title", .str " New "), ("author", .str "Me"),
        ("year", .num 0)]).2.status = 200 ∧
      (putBook seed (some 2) [("id", .num 99), ("title", .str " New "), ("author", .str "Me"),
        ("year", .num 0)]).2.book? = some upd ∧
      (putBook seed (some 2) [("id", .num 99), ("title", .str " New "), ("author", .str "Me"),
        ("year", .num 0)]).1.books[i]? = some upd ∧
      (∀ j, j ≠ i →
        (putBook seed (some 2) [("id", .num 99), ("title", .str " New "), ("author", .str "Me"),
          ("year", .num 0)]).1.books[j]? = seed.books[j]?) ∧
      (putBook seed (some 2) [("id", .num 99), ("title", .str " New "), ("author", .str "Me"),
        ("year", .num 0)]).1.books.length = seed.books.length ∧
      (putBook seed (some 2) [("id", .num 99), ("title", .str " New "), ("author", .str "Me"),
        ("year", .num 0)]).1.nextId = seed.nextId :=
  ⟨rfl, by decide,
   put_known_updates seed 2
     [("id", .num 99), ("title", .str " New "), ("author", .str "Me"), ("year", .num 0)]
     rfl (by decide)⟩

/-- C5: for every store with pairwise distinct ids and every id of a record in
the collection, `DELETE /books/:id` answers 200 with the record that had that
id; the collection is one shorter, holds no record with that id, consists of
exactly the other records in their original order, and `nextId` is unchanged. -/
theorem delete_known_removes (s : Store) (id : Int) (hnd : (ids s).Nodup)
    (hid : id ∈ ids s) :
    ∃ i old, s.books[i]? = some old ∧ old.id = id ∧
      (deleteBook s (some id)).2.status = 200 ∧
      (deleteBook s (some id)).2.book? = some old ∧
      (deleteBook s (some id)).1.books.length + 1 = s.books.length ∧
      id ∉ ids (deleteBook s (some id)).1 ∧
      (deleteBook s (some id)).1.books = s.books.eraseIdx i ∧
      (deleteBook s (some id)).1.books = s.books.filter (fun b => b.id != id) ∧
      (deleteBook s (some id)).1.nextId = s.nextId := by
  obtain ⟨i, old, hi, hold, hoid, -⟩ := findIndex_known s id hid
  have hlt : i < s.books.length := by
    rcases List.getElem?_eq_some_iff.1 hold with ⟨h, -⟩
    exact h
  have hfil := eraseIdx_eq_filter_of_nodup s.books i old hnd hold
  rw [hoid] at hfil
  refine ⟨i, old, hold, hoid, ?_⟩
  rw [deleteBook_known s (some id) i old hi hold]
  refine ⟨rfl, rfl, ?_, ?_, rfl, hfil, rfl⟩
  · simp only [List.length_eraseIdx, hlt, if_true]
    omega
  · simp only [ids, hfil, List.mem_map, List.mem_filter, not_exists, not_and]
    intro b hb hbid
    simp [hbid] at hb

/-- Witness for C5: deleting seeded book 2. -/
theorem delete_known_removes_witness :
    (ids seed).Nodup ∧ (2 : Int) ∈ ids seed ∧
    ∃ i old, seed.books[i]? = some old ∧ old.id = 2 ∧
      (deleteBook seed (some 2)).2.status = 200 ∧
      (deleteBook seed (some 2)).2.book? = some old ∧
      (deleteBook seed (some 2)).1.books.length + 1 = seed.books.length ∧
      (2 : Int) ∉ ids (deleteBook seed (some 2)).1 ∧
      (deleteBook seed (some 2)).1.books = seed.books.eraseIdx i ∧
      (deleteBook seed (some 2)).1.books = seed.books.filter (fun b => b.id != 2) ∧
      (deleteBook seed (some 2)).1.nextId = seed.nextId :=
  ⟨by decide, by decide, delete_known_removes seed 2 (by decide) (by decide)⟩

end Server

/-! ## Round trip, stored strings and the end-to-end scenario -/

theorem trimChars_eq_self (l : List Char)
    (h1 : ∀ c, l.head? = some c → isJsWhitespace c = false)
    (h2 : ∀ c, l.getLast? = some c → isJsWhitespace c = false) :
    trimChars l = l := by
  have hd : l.dropWhile isJsWhitespace = l := by
    rw [List.dropWhile_eq_self_iff]
    intro hl
    cases l with
    | nil => simp at hl
    | cons x xs => simpa using h1 x rfl
  unfold trimChars
  rw [hd, List.rdropWhile_eq_self_iff]
  intro hl
  have := h2 (l.getLast hl) (List.getLast?_eq_getLast l hl)
  simp [this]

theorem jsTrim_eq_self (s : String) (h1 : noLeadingWs s) (h2 : noTrailingWs s) :
    jsTrim s = s := by
  unfold jsTrim
  rw [trimChars_eq_self s.data h1 h2]

theorem trimChars_head (l : List Char) :
    ∀ c, (trimChars l).head? = some c → isJsWhitespace c = false := by
  intro c hc
  have hne : trimChars l ≠ [] := by
    intro h
    rw [h] at hc
    cases hc
  have hpre : trimChars l <+: l.dropWhile isJsWhitespace := List.rdropWhile_prefix isJsWhitespace _
  have hhead := hpre.head hne
  have hc2 : (trimChars l).head hne = c := by
    rw [List.head?_eq_head hne] at hc
    exact Option.some.inj hc
  rw [← hc2, hhead]
  exact List.head_dropWhile_not _ _ _

theorem trimChars_getLast (l : List Char) :
    ∀ c, (trimChars l).getLast? = some c → isJsWhitespace c = false := by
  intro c hc
  have hne : trimChars l ≠ [] := by
    intro h
    rw [h] at hc
    cases hc
  have hc2 : (trimChars l).getLast hne = c := by
    rw [List.getLast?_eq_getLast _ hne] at hc
    exact Option.some.inj hc
  have := List.rdropWhile_last_not isJsWhitespace (l.dropWhile isJsWhitespace) hne
  rw [← hc2]
  simpa [trimChars] using this

/-- The result of `trim` has no leading and no trailing white space. -/
theorem jsTrim_trimmed (s : String) : noLeadingWs (jsTrim s) ∧ noTrailingWs (jsTrim s) :=
  ⟨trimChars_head s.data, trimChars_getLast s.data⟩

namespace Server

theorem stringsTrimmed_seed : StringsTrimmed seed := by
  intro b hb
  have : b = seedBooks.get ⟨0, by decide⟩ ∨ b = seedBooks.get ⟨1, by decide⟩ ∨
      b = seedBooks.get ⟨2, by decide⟩ := by
    simpa [seed, seedBooks] using hb
  rcases this with rfl | rfl | rfl <;> decide

theorem stringsTrimmed_handle (now : Int) (s : Store) (r : Request)
    (h : StringsTrimmed s) : StringsTrimmed (handle now s r).1 := by
  rcases handle_store_cases now s r with
    h1 | ⟨t0, a0, body0, h1⟩ | ⟨i, old, t, a, body, hold, h1⟩ | ⟨i, h1⟩
  · rw [h1]; exact h
  · rw [h1]
    intro b hb
    simp only [List.mem_append, List.mem_singleton] at hb
    rcases hb with hb | rfl
    · exact h b hb
    · exact ⟨jsTrim_trimmed t0, jsTrim_trimmed a0⟩
  · rw [h1]
    intro b hb
    rcases List.mem_or_eq_of_mem_set hb with hb | rfl
    · exact h b hb
    · exact ⟨jsTrim_trimmed t, jsTrim_trimmed a⟩
  · rw [h1]
    intro b hb
    exact h b ((List.eraseIdx_sublist s.books i).subset hb)

/-- The half of the data-model invariant that the code keeps: after every
sequence of requests from the seed, every stored title and author is free of
leading and trailing white space. -/
theorem stringsTrimmed_after (reqs : List (Int × Request)) :
    StringsTrimmed (after seed reqs) := by
  suffices h : ∀ s, StringsTrimmed s → StringsTrimmed (after s reqs) from
    h seed stringsTrimmed_seed
  induction reqs with
  | nil => exact fun s hs => hs
  | cons x rest ih =>
    obtain ⟨now, r⟩ := x
    intro s hs
    rw [after_cons]
    exact ih _ (stringsTrimmed_handle now s r hs)

theorem find_new_book (s : Store) (b : Book) (hlt : ∀ i ∈ ids s, i < s.nextId)
    (hb : b.id = s.nextId) :
    (s.books ++ [b]).find? (idIs (some b.id)) = some b := by
  have hnone : s.books.find? (idIs (some b.id)) = none := by
    rw [List.find?_eq_none]
    intro x hx hp
    simp only [idIs, beq_iff_eq, Option.some.injEq] at hp
    have := hlt x.id (List.mem_map_of_mem _ hx)
    omega
  simp [List.find?_append, hnone, idIs]

/-- An integer of magnitude below `2 ^ 53` is exactly representable: it reaches
the handler unchanged. -/
theorem binary64_of_safe (n : Int) (h : n.natAbs < 2 ^ 53) : binary64 n = some n := by
  cases n with
  | ofNat k =>
    have hk : k < 2 ^ 53 := h
    simp only [binary64, binary64OfNat, if_pos hk, Option.map_some', Int.ofNat_eq_coe]
  | negSucc k =>
    have hk : k + 1 < 2 ^ 53 := h
    simp only [binary64, binary64OfNat, if_pos hk, Option.map_some']
    rfl

/-- C6 (amended): for every store reachable from the seed, every non-empty
`title` and `author` without leading or trailing white space and every non-zero
integer `year` of magnitude below `2 ^ 53` written in the body (`body.year` is
what JSON parsing makes of it), `POST /books` answers 201 and a following
`GET /books/:id` with the returned id answers 200 with a record of identical
title, author and year. -/
theorem post_then_get_roundtrip (reqs : List (Int × Request)) (now : Int) (body : JsObj)
    (title author : String) (year : Int)
    (ht : body.get "title" = .str title) (ha : body.get "author" = .str author)
    (hy : jsonInteger year = some (body.get "year"))
    (htne : title.data ≠ []) (hane : author.data ≠ [])
    (htl : noLeadingWs title) (htr : noTrailingWs title)
    (hal : noLeadingWs author) (har : noTrailingWs author)
    (hy0 : year ≠ 0) (hsafe : year.natAbs < 2 ^ 53) :
    ∃ b g, (postBook now (after seed reqs) body).2.status = 201 ∧
      (postBook now (after seed reqs) body).2.book? = some b ∧
      (getBook (postBook now (after seed reqs) body).1 (some b.id)).2.status = 200 ∧
      (getBook (postBook now (after seed reqs) body).1 (some b.id)).2.book? = some g ∧
      g.id = b.id ∧ g.title = title ∧ g.author = author ∧ g.year = .num year := by
  have hyear : body.get "year" = .num year := by
    rw [jsonInteger, binary64_of_safe year hsafe] at hy
    exact (Option.some.inj hy).symm
  have hv : validateBook body = none :=
    (validateBook_eq_none_iff body).2 ⟨title, author, ht, ha, htne, hane⟩
  have hinv := inv_after seed reqs inv_seed
  refine ⟨newBookOf now (after seed reqs) title author body,
    newBookOf now (after seed reqs) title author body, ?_⟩
  rw [postBook_valid now (after seed reqs) body title author ht ha hv]
  have hfind := find_new_book (after seed reqs)
    (newBookOf now (after seed reqs) title author body) hinv.2 rfl
  refine ⟨rfl, rfl, ?_, ?_, rfl, ?_, ?_, ?_⟩
  · simp only [getBook, hfind]
  · simp only [getBook, hfind, Response.book?]
  · exact jsTrim_eq_self title htl htr
  · exact jsTrim_eq_self author hal har
  · simp [newBookOf, hyear, JsVal.or, JsVal.truthy, hy0]

/-- Witness for C6: the round trip of `{ title: "A", author: "B", year: 2001 }`
on the seeded store. -/
theorem post_then_get_roundtrip_witness :
    ∃ b g,
      (postBook 2024 (after seed [])
        [("title", .str "A"), ("author", .str "B"), ("year", .num 2001)]).2.status = 201 ∧
      (postBook 2024 (after seed [])
        [("title", .str "A"), ("author", .str "B"), ("year", .num 2001)]).2.book? = some b ∧
      (getBook (postBook 2024 (after seed [])
        [("title", .str "A"), ("author", .str "B"), ("year", .num 2001)]).1
          (some b.id)).2.status = 200 ∧
      (getBook (postBook 2024 (after seed [])
        [("title", .str "A"), ("author", .str "B"), ("year", .num 2001)]).1
          (some b.id)).2.book? = some g ∧
      g.id = b.id ∧ g.title = "A" ∧ g.author = "B" ∧ g.year = .num 2001 :=
  post_then_get_roundtrip [] 2024
    [("title", .str "A"), ("author", .str "B"), ("year", .num 2001)] "A" "B" 2001
    rfl rfl rfl (by decide) (by decide) (by decide) (by decide) (by decide) (by decide)
    (by decide) (by decide)

/-- Counterexample to C6 as stated, at two integer years.  With year 0 in the
body, the record read back after the `POST` carries the current calendar year
(here 2024).  With year 9007199254740993 in the body, JSON parsing hands the
handler the nearest binary64 number, and the record read back carries
9007199254740992. -/
theorem post_year_not_roundtrip :
    (jsonInteger 0 = some (JsObj.get
        [("title", .str "A"), ("author", .str "B"), ("year", .num 0)] "year") ∧
      ∃ b g,
        (postBook 2024 seed
          [("title", .str "A"), ("author", .str "B"), ("year", .num 0)]).2.status = 201 ∧
        (postBook 2024 seed
          [("title", .str "A"), ("author", .str "B"), ("year", .num 0)]).2.book? = some b ∧
        (getBook (postBook 2024 seed
          [("title", .str "A"), ("author", .str "B"), ("year", .num 0)]).1
            (some b.id)).2.book? = some g ∧
        g.title = "A" ∧ g.author = "B" ∧ g.year = .num 2024 ∧ g.year ≠ .num 0) ∧
    (jsonInteger 9007199254740993 = some (JsObj.get
        [("title", .str "A"), ("author", .str "B"), ("year", .num 9007199254740992)] "year") ∧
      ∃ b g,
        (postBook 2024 seed
          [("title", .str "A"), ("author", .str "B"),
           ("year", .num 9007199254740992)]).2.status = 201 ∧
        (postBook 2024 seed
          [("title", .str "A"), ("author", .str "B"),
           ("year", .num 9007199254740992)]).2.book? = some b ∧
        (getBook (postBook 2024 seed
          [("title", .str "A"), ("author", .str "B"),
           ("year", .num 9007199254740992)]).1 (some b.id)).2.book? = some g ∧
        g.title = "A" ∧ g.author = "B" ∧ g.year = .num 9007199254740992 ∧
        g.year ≠ .num 9007199254740993) :=
  ⟨⟨rfl,
    { id := 4, title := "A", author := "B", year := .num 2024 },
    { id := 4, title := "A", author := "B", year := .num 2024 },
    rfl, rfl, rfl, rfl, rfl, rfl, by simp⟩,
   ⟨rfl,
    { id := 4, title := "A", author := "B", year := .num 9007199254740992 },
    { id := 4, title := "A", author := "B", year := .num 9007199254740992 },
    rfl, rfl, rfl, rfl, rfl, rfl, by simp⟩⟩

/-- C7 (failing input): a `POST /books` whose title is a single space passes
`validateBook`, is answered 201, and leaves in the collection a record whose
title is the empty string. -/
theorem blank_title_stored_empty :
    validateBook [("title", .str " "), ("author", .str "x")] = none ∧
    (postBook 2024 seed [("title", .str " "), ("author", .str "x")]).2.status = 201 ∧
    (after seed [(2024, .postBook [("title", .str " "), ("author", .str "x")])]).books.map
        (fun b => (b.id, b.title, b.author)) =
      [(1, "The Great Gatsby", "F. Scott Fitzgerald"),
       (2, "To Kill a Mockingbird", "Harper Lee"),
       (3, "1984", "George Orwell"),
       (4, "", "x")] :=
  ⟨rfl, rfl, by decide⟩

/-- C8: from the seeded store, `POST /books` with "Dune" answers 201 with a
record of id 4; the following `GET /books` answers with count 4;
`DELETE /books/2` answers 200 with the Harper Lee record; the following
`GET /books` answers with count 3 and ids 1, 3, 4; and for every store the
count of `GET /books` is the length of its data. -/
theorem end_to_end_scenario (now : Int) :
    let dune : JsObj :=
      [("title", .str "Dune"), ("author", .str "Frank Herbert"), ("year", .num 1965)]
    let s1 := (postBook now seed dune).1
    let s2 := (deleteBook s1 (some 2)).1
    (postBook now seed dune).2.status = 201 ∧
    (postBook now seed dune).2.book?.map (·.id) = some 4 ∧
    (getBooks s1).2.status = 200 ∧
    (getBooks s1).2.count? = some 4 ∧
    (deleteBook s1 (some 2)).2.status = 200 ∧
    (deleteBook s1 (some 2)).2.book?.map (fun b => (b.id, b.title, b.author)) =
      some (2, "To Kill a Mockingbird", "Harper Lee") ∧
    (∃ b, (deleteBook s1 (some 2)).2.book? = some b ∧ b.year = .num 1960) ∧
    (getBooks s2).2.status = 200 ∧
    (getBooks s2).2.count? = some 3 ∧
    (getBooks s2).2.books?.map (List.map (·.id)) = some [1, 3, 4] ∧
    (∀ s : Store, ∃ data, (getBooks s).2.books? = some data ∧
      (getBooks s).2.count? = some data.length) := by
  intro dune s1 s2
  refine ⟨rfl, rfl, rfl, rfl, rfl, rfl, ⟨_, rfl, rfl⟩, rfl, rfl, rfl, ?_⟩
  intro s
  exact ⟨s.books, rfl, rfl⟩

end Server

/-! ## Verified properties of the client -/

namespace Client

open Server

theorem escapeChar_no_angle (c : Char) :
    '<' ∉ escapeChar c ∧ '>' ∉ escapeChar c := by
  unfold escapeChar
  split_ifs with h1 h2 h3 h4
  · decide
  · decide
  · decide
  · decide
  · simp only [List.mem_singleton]
    exact ⟨fun h => h3 h.symm, fun h => h4 h.symm⟩

/-- The function `escapeHtml` leaves no `<` and no `>` in its result: the title
and the author of a card cannot open or close a tag. -/
theorem escapeHtml_no_angle (text : String) :
    '<' ∉ (escapeHtml text).data ∧ '>' ∉ (escapeHtml text).data := by
  simp only [escapeHtml, List.mem_flatMap, not_exists, not_and]
  exact ⟨fun c _ => (escapeChar_no_angle c).1, fun c _ => (escapeChar_no_angle c).2⟩

set_option maxRecDepth 100000 in
/-- C9 (failing input): after the three seeded books are deleted, a `POST /books`
whose `year` is a string of markup is answered 201, and `displayBooks` on the
list that `GET /books` then returns writes the title and the author escaped and
the year as it is, tag included. -/
theorem year_rendered_unescaped :
    (postBook 2024
      (after seed [(2024, .deleteBook (some 1)), (2024, .deleteBook (some 2)),
        (2024, .deleteBook (some 3))])
      [("title", .str "<b>A</b>"), ("author", .str "B & C"),
       ("year", .str "<img src=x onerror=alert(1)>")]).2.status = 201 ∧
    (getBooks
      (after seed [(2024, .deleteBook (some 1)), (2024, .deleteBook (some 2)),
        (2024, .deleteBook (some 3)),
        (2024, .postBook [("title", .str "<b>A</b>"), ("author", .str "B & C"),
          ("year", .str "<img src=x onerror=alert(1)>")])])).2.books?.map displayBooks =
      some ("\n        <div class=\"book-card\">\n            <div class=\"book-title\">&lt;b&gt;A&lt;/b&gt;</div>\n            <div class=\"book-author\">by B &amp; C</div>\n            <div class=\"book-year\">📅 <img src=x onerror=alert(1)></div>\n            <div class=\"book-actions\">\n                <button class=\"btn btn-update\" onclick=\"editBook(4)\">\n                    ✏️ Edit\n                </button>\n                <button class=\"btn btn-delete\" onclick=\"deleteBook(4)\">\n                    🗑️ Delete\n                </button>\n            </div>\n        </div>\n    ") :=
  ⟨rfl, by decide⟩

end Client

namespace Client

open Server

/-- The request a submit sends when the trimmed title and author are not
empty: the one chosen from `editingId`, whatever the outcome. -/
theorem submit_sends (c : Controller) (title author : String) (o : Outcome)
    (htitle : (jsTrim title).data ≠ []) (hauthor : (jsTrim author).data ≠ []) :
    (submit c title author o).2 = some (submitCall c.editingId) := by
  have hne : ((jsTrim title).data == [] || (jsTrim author).data == []) = false := by
    simp [htitle, hauthor]
  simp only [submit, hne, Bool.false_eq_true, if_false]
  cases o with
  | networkError => rfl
  | badBody b => rfl
  | parsed b1 b2 b3 => cases b1 <;> cases b2 <;> rfl

/-- A submit that takes its `catch` path, or returns early, leaves the state. -/
theorem submit_unchanged (c : Controller) (title author : String) (o : Outcome)
    (hf : o.submitFails = true) : (submit c title author o).1 = c := by
  unfold submit
  split
  · rfl
  · cases o with
    | networkError => rfl
    | badBody b => rfl
    | parsed b1 b2 b3 =>
      cases b1 <;> cases b2 <;> first | rfl | simp [Outcome.submitFails] at hf

/-- An `editBook` that takes its `catch` path leaves the state. -/
theorem editBook_unchanged (c : Controller) (id : Int) (o : Outcome)
    (hf : o.editFails = true) : (editBook c id o).1 = c := by
  cases o with
  | networkError => rfl
  | badBody b => rfl
  | parsed b1 b2 b3 =>
    cases b2 <;> cases b3 <;> first | rfl | simp [Outcome.editFails] at hf

/-- Every answer of the server reads on the client as OK with `success` and
`data`, or as not OK with neither: the server sets `success: true` exactly on
its 200 and 201 answers. -/
theorem outcomeOf_handle (now : Int) (s : Store) (req : Request) :
    outcomeOf (handle now s req).2 = .parsed true true true ∨
    outcomeOf (handle now s req).2 = .parsed false false false := by
  cases req with
  | getBooks => exact Or.inl rfl
  | getBook id =>
    simp only [handle, getBook]
    split
    · exact Or.inr rfl
    · exact Or.inl rfl
  | postBook body =>
    cases hv : validateBook body with
    | some r =>
      have hr : r.status = 400 ∧ ∃ e m, r.body = .error e m := by
        simp only [validateBook] at hv
        split_ifs at hv <;> cases hv <;> exact ⟨rfl, _, _, rfl⟩
      obtain ⟨hst, e, m, hb⟩ := hr
      simp only [handle, postBook_invalid now s body r hv]
      exact Or.inr (by simp [outcomeOf, hb, hst, statusOk])
    | none =>
      obtain ⟨t, a, ht, ha, -, -⟩ := (validateBook_eq_none_iff body).1 hv
      simp only [handle, postBook_valid now s body t a ht ha hv]
      exact Or.inl rfl
  | putBook id body =>
    cases hv : validateBook body with
    | some r =>
      have hr : r.status = 400 ∧ ∃ e m, r.body = .error e m := by
        simp only [validateBook] at hv
        split_ifs at hv <;> cases hv <;> exact ⟨rfl, _, _, rfl⟩
      obtain ⟨hst, e, m, hb⟩ := hr
      simp only [handle, putBook_invalid s id body r hv]
      exact Or.inr (by simp [outcomeOf, hb, hst, statusOk])
    | none =>
      obtain ⟨t, a, ht, ha, -, -⟩ := (validateBook_eq_none_iff body).1 hv
      cases hi : findIndex (idIs id) s.books with
      | none =>
        simp only [handle, putBook_unknown s id body hv hi]
        exact Or.inr rfl
      | some i =>
        obtain ⟨old, hold, -, -⟩ := findIndex_some_spec _ _ _ hi
        simp only [handle, putBook_known s id body t a i old ht ha hv hi hold]
        exact Or.inl rfl
  | deleteBook id =>
    cases hi : findIndex (idIs id) s.books with
    | none =>
      simp only [handle, deleteBook_unknown s id hi]
      exact Or.inr rfl
    | some i =>
      obtain ⟨old, hold, -, -⟩ := findIndex_some_spec _ _ _ hi
      simp only [handle, deleteBook_known s id i old hi hold]
      exact Or.inl rfl

/-- C10: the controller over `editingId` (`Idle` is `null`, `Editing(id)` is
`id`), for an id that the server lists in some store reachable from the seed
and a request whose outcome is a network error or an answer of the server.  A
successful `editBook(id)` moves to `Editing(id)`; cancel, and Escape while
`Editing(id)`, move to `Idle`; a submit whose response is a success moves to
`Idle`; a submit sends `PUT /books/id` in `Editing(id)` and `POST /books` in
`Idle`; and a submit, edit or delete that fails (status not OK, `success` not
true, or network error) leaves `editingId` unchanged. -/
theorem controller_state_machine (c : Controller) (id : Int) (title author : String)
    (o : Outcome) (confirmed : Bool)
    (reqs : List (Int × Request)) (now : Int) (s : Store) (req : Request)
    (hid : id ∈ ids (after seed reqs))
    (ho : o = .networkError ∨ o = outcomeOf (handle now s req).2)
    (htitle : (jsTrim title).data ≠ []) (hauthor : (jsTrim author).data ≠ []) :
    (o.specFails = false → (editBook c id o).1 = { editingId := some id }) ∧
    cancelClick c = init ∧
    keydown { editingId := some id } "Escape" = init ∧
    (o.specFails = false → (submit c title author o).1 = init) ∧
    (submit { editingId := some id } title author o).2 =
      some { method := .PUT, url := API_BASE ++ "/books/" ++ toString id } ∧
    (submit init title author o).2 = some { method := .POST, url := API_BASE ++ "/books" } ∧
    (o.specFails = true →
      (submit c title author o).1 = c ∧ (editBook c id o).1 = c ∧
      (deleteBook c id confirmed o).1 = c) := by
  have hid0 : id ≠ 0 := by
    have := ids_pos_after reqs id hid
    omega
  have hne : ((jsTrim title).data == [] || (jsTrim author).data == []) = false := by
    simp [htitle, hauthor]
  have hdel : (deleteBook c id confirmed o).1 = c := by
    unfold deleteBook
    split <;> rfl
  have hcases : o = .networkError ∨ o = .parsed true true true ∨
      o = .parsed false false false := by
    rcases ho with h | h
    · exact Or.inl h
    · rcases outcomeOf_handle now s req with h2 | h2
      · exact Or.inr (Or.inl (h.trans h2))
      · exact Or.inr (Or.inr (h.trans h2))
  refine ⟨?_, rfl, ?_, ?_, ?_, ?_, ?_⟩
  · intro hs
    rcases hcases with h | h | h <;> subst h
    · simp [Outcome.specFails] at hs
    · rfl
    · simp [Outcome.specFails] at hs
  · simp [keydown, editingTruthy, hid0, cancelClick, resetForm, init]
  · intro hs
    rcases hcases with h | h | h <;> subst h
    · simp [Outcome.specFails] at hs
    · simp only [submit, hne, Bool.false_eq_true, if_false, resetForm, init]
    · simp [Outcome.specFails] at hs
  · rw [submit_sends _ title author o htitle hauthor]
    simp [submitCall, hid0]
  · rw [submit_sends _ title author o htitle hauthor]
    rfl
  · intro hs
    rcases hcases with h | h | h <;> subst h
    · exact ⟨submit_unchanged c title author _ rfl, editBook_unchanged c id _ rfl, hdel⟩
    · simp [Outcome.specFails] at hs
    · exact ⟨submit_unchanged c title author _ rfl, editBook_unchanged c id _ rfl, hdel⟩

/-- Witness for C10: `editBook(2)` on the seeded store, answered by the server's
`GET /books/2`, enters `Editing(2)`; the submit that follows sends
`PUT /books/2`. -/
theorem controller_state_machine_witness :
    (2 : Int) ∈ ids (after seed []) ∧
    (outcomeOf (handle 2024 seed (.getBook (some 2))).2).specFails = false ∧
    (editBook init 2 (outcomeOf (handle 2024 seed (.getBook (some 2))).2)).1 =
      { editingId := some 2 } ∧
    (submit { editingId := some 2 } "A" "B"
      (outcomeOf (handle 2024 seed (.getBook (some 2))).2)).2 =
      some { method := .PUT, url := API_BASE ++ "/books/" ++ toString (2 : Int) } :=
  ⟨by decide, by decide,
   (controller_state_machine init 2 "A" "B"
      (outcomeOf (handle 2024 seed (.getBook (some 2))).2) true [] 2024 seed
      (.getBook (some 2)) (by decide) (Or.inr rfl) (by decide) (by decide)).1 (by decide),
   (controller_state_machine init 2 "A" "B"
      (outcomeOf (handle 2024 seed (.getBook (some 2))).2) true [] 2024 seed
      (.getBook (some 2)) (by decide) (Or.inr rfl) (by decide) (by decide)).2.2.2.2.1⟩

end Client
